import Mathlib

/-!
# Apollo: the cyber Python wrapper, the interval pool, the perception polygon

The first sections embed `cyber/py_wrapper/py_node.h`; the sections after them
embed `IntervalPool` of `modules/data/tools/smart_recorder/interval_pool.cc` and
`FillPerceptionPolygon` of `modules/l3_perception/l3_perception_util.cc`.

A shallow embedding of the classes of `py_node.h` (`PyWriter`, `PyReader`,
`PyService`, `PyClient`, `PyNode`).  A `std::deque<std::string>` is a `List String`
whose head is `front()`; `push_back` appends at the tail and `pop_front` drops the
head.  A mutex-protected block is one atomic step.  A call that can suspend on a
condition variable is a step function: it either returns or is left waiting, and
is resumed by a wake-up.

The classes of the transport (`Node`, `Writer`, `Reader`, `Service`, `Client`), the
message wrappers and the protobuf factory are declared in other headers of cyber;
what `py_node.h` uses of them is carried by the structures of the first section.
-/

namespace Apollo

/-! ## Collaborators declared outside `py_node.h` -/

/-- Modelled from the spec: `message::PyMessageWrap` (declared in
cyber/message/py_message.h, outside `py_node.h`), the Envelope `{payload, type_name}`; `data()` is the
payload. -/
structure PyMessageWrap where
  data : String
  type_name : String
deriving DecidableEq, Repr

/-- Modelled from the spec: `message::RawMessage` (declared in
cyber/message/raw_message.h, outside `py_node.h`); `py_node.h` reads its public member `message`. -/
structure RawMessage where
  message : String
deriving DecidableEq, Repr

/-- Modelled from the spec: `proto::RoleAttributes` (a generated protobuf class,
declared outside `py_node.h`), `{channel_name, message_type, schema_descriptor, queue_depth}`. -/
structure RoleAttributes where
  channel_name : String
  message_type : String
  proto_desc : String
  qos_depth : Nat
deriving DecidableEq, Repr

/-- Modelled from the spec: the transport `Writer` (declared in
cyber/node/writer.h, outside `py_node.h`); `Write` hands an Envelope to the transport and tells whether that
succeeded. -/
structure Writer where
  role_attr : RoleAttributes
  Write : PyMessageWrap → Bool

/-- Modelled from the spec: the transport `Client` (declared outside `py_node.h`);
`SendRequest` yields the reply, or null when none was obtained. -/
structure Client where
  SendRequest : PyMessageWrap → Option PyMessageWrap

/-- Modelled from the spec: the transport `Node` (declared in cyber/node/node.h,
outside `py_node.h`), as far as `py_node.h` calls it.  `CreateWriter` and `CreateClient` give
the shared pointer (`none` is null); `CreateReader` and `CreateService` tell
whether the pointer they give is non-null. -/
structure Node where
  CreateWriter : RoleAttributes → Option Writer
  CreateReader : String → Bool
  CreateService : String → Bool
  CreateClient : String → Option Client

/-- Modelled from the spec: the return codes of cyber (the enumeration holding
`SUCC` is declared outside `py_node.h`); `SUCC` is the success result. -/
inductive ReturnCode
  | SUCC
  | FAIL
deriving DecidableEq, Repr

/-! ## PyReader -/

/-- `const char RAWDATATYPE[] = "RawData";` -/
def RAWDATATYPE : String := "RawData"

/-- The observable effects of one run of a delivery callback, in program order. -/
inductive Effect
  | append (payload : String)
  | hook (channel : String)
  | signal
deriving DecidableEq, Repr

/-- The data members of `PyReader`.  `func_` is the registered C function pointer
`int (*)(const char*)`, null (`none`) until `register_func`.  `reader_` and
`reader_rawmsg_` record whether the transport handed back a subscription. -/
structure PyReader where
  channel_name_ : String
  data_type_ : String
  func_ : Option (String → Int)
  cache_ : List String
  reader_ : Bool
  reader_rawmsg_ : Bool

/-- `PyReader::PyReader`: an empty queue, no hook, and one of the two transport
readers, chosen by comparing the type with `RAWDATATYPE`. -/
def PyReader.new (channel type : String) (node : Node) : PyReader :=
  if type = RAWDATATYPE then
    { channel_name_ := channel, data_type_ := type, func_ := none, cache_ := [],
      reader_ := node.CreateReader channel, reader_rawmsg_ := false }
  else
    { channel_name_ := channel, data_type_ := type, func_ := none, cache_ := [],
      reader_ := false, reader_rawmsg_ := node.CreateReader channel }

/-- `PyReader::register_func`. -/
def PyReader.register_func (r : PyReader) (func : String → Int) : PyReader :=
  { r with func_ := some func }

/-- The block `if (!cache_.empty()) { msg = std::move(cache_.front());
cache_.pop_front(); }`, which `read` contains twice: the local `msg` and the
deque before and after. -/
def take_front (msg : String) (cache : List String) : String × List String :=
  match cache with
  | [] => (msg, [])
  | front :: rest => (front, rest)

/-- How a call of `PyReader::read` stands: it has returned `msg`, or it is
suspended inside `msg_cond_.wait` with the local variable `msg`. -/
inductive ReadResult
  | returned (msg : String)
  | waiting (msg : String)
deriving DecidableEq, Repr

/-- The tail of `PyReader::read` from `msg_cond_.wait(ul, pred)` on, entered with
the lock held: `wait(ul, pred)` is `while (!pred()) wait(ul);`, so with an empty
deque the thread is suspended (and runs this again at every wake-up), and with a
non-empty deque the second `take_front` block runs and `msg` is returned. -/
def PyReader.wait_and_take (r : PyReader) (msg : String) : ReadResult × PyReader :=
  if r.cache_.isEmpty then
    (ReadResult.waiting msg, r)
  else
    let p := take_front msg r.cache_
    (ReadResult.returned p.1, { r with cache_ := p.2 })

/-- `PyReader::read(bool wait)`, up to its return or its first suspension. -/
def PyReader.read (r : PyReader) (wait : Bool) : ReadResult × PyReader :=
  let p := take_front "" r.cache_
  let r1 : PyReader := { r with cache_ := p.2 }
  if !wait then
    (ReadResult.returned p.1, r1)
  else
    r1.wait_and_take p.1

/-- The body shared by `PyReader::cb` and `PyReader::cb_rawmsg`: `push_back` under
the lock, then the hook if one is registered, then `notify_one`.  The hook is
foreign code without access to the private `cache_`; what it does to the reader
it does by calling `read`, which is a call of its own in a schedule. -/
def PyReader.on_message (r : PyReader) (payload : String) : PyReader × List Effect :=
  let r1 : PyReader := { r with cache_ := r.cache_ ++ [payload] }
  let hooked : List Effect :=
    match r.func_ with
    | some _ => [Effect.hook r.channel_name_]
    | none => []
  (r1, [Effect.append payload] ++ hooked ++ [Effect.signal])

/-- `PyReader::cb`: the payload is `message->data()`. -/
def PyReader.cb (r : PyReader) (message : PyMessageWrap) : PyReader × List Effect :=
  r.on_message message.data

/-- `PyReader::cb_rawmsg`: the payload is `message->message`. -/
def PyReader.cb_rawmsg (r : PyReader) (message : RawMessage) : PyReader × List Effect :=
  r.on_message message.message

/-- What the transport hands to a reader: a wrapped message (to `cb`) or a raw
message (to `cb_rawmsg`). -/
inductive Delivery
  | wrapped (message : PyMessageWrap)
  | raw (message : RawMessage)
deriving DecidableEq, Repr

/-- The string a delivery puts into the queue. -/
def Delivery.payload : Delivery → String
  | Delivery.wrapped m => m.data
  | Delivery.raw m => m.message

/-- One run of the transport callback. -/
def PyReader.deliver (r : PyReader) : Delivery → PyReader
  | Delivery.wrapped m => (r.cb m).1
  | Delivery.raw m => (r.cb_rawmsg m).1

/-- Deliveries one after the other, no read in between. -/
def PyReader.deliver_all (r : PyReader) (ds : List Delivery) : PyReader :=
  ds.foldl PyReader.deliver r

/-- The results of `n` successive calls `read(wait)` and the reader after them; a
call that is left waiting ends the run. -/
def PyReader.read_n (r : PyReader) (wait : Bool) : Nat → List ReadResult × PyReader
  | 0 => ([], r)
  | n + 1 =>
    match r.read wait with
    | (ReadResult.returned msg, r1) =>
      let rest := r1.read_n wait n
      (ReadResult.returned msg :: rest.1, rest.2)
    | (ReadResult.waiting msg, r1) => ([ReadResult.waiting msg], r1)

/-- What can happen to a reader while a call of `read` is in flight: the transport
runs the delivery callback, or the suspended thread wakes up (after `notify_one`,
or spuriously) and evaluates the wait predicate again. -/
inductive ReaderEvent
  | deliver (d : Delivery)
  | wake
deriving DecidableEq, Repr

/-- A wake-up of the calling thread: a call that has returned stays returned, a
suspended one runs `wait_and_take` again. -/
def PyReader.resume : ReadResult × PyReader → ReadResult × PyReader
  | (ReadResult.returned msg, r) => (ReadResult.returned msg, r)
  | (ReadResult.waiting msg, r) => r.wait_and_take msg

/-- One event applied to a call in flight and its reader. -/
def PyReader.step (c : ReadResult × PyReader) : ReaderEvent → ReadResult × PyReader
  | ReaderEvent.deliver d => (c.1, c.2.deliver d)
  | ReaderEvent.wake => PyReader.resume c

/-- A schedule of events applied from left to right. -/
def PyReader.run (c : ReadResult × PyReader) (es : List ReaderEvent) :
    ReadResult × PyReader :=
  es.foldl PyReader.step c

/-! ## PyWriter -/

/-- The data members of `PyWriter`; `writer_` is the shared pointer to the transport
writer, null (`none`) until the constructor assigns it. -/
structure PyWriter where
  channel_name_ : String
  data_type_ : String
  qos_depth_ : Nat
  writer_ : Option Writer

/-- `PyWriter::PyWriter`.  `GetDescriptorString` is the schema lookup of the
protobuf factory singleton, which leaves `proto_desc` empty for a type it does
not know; the constructor then returns early and `writer_` stays null. -/
def PyWriter.new (GetDescriptorString : String → String) (channel type : String)
    (qos_depth : Nat) (node : Node) : PyWriter :=
  let proto_desc := GetDescriptorString type
  if proto_desc.isEmpty then
    { channel_name_ := channel, data_type_ := type, qos_depth_ := qos_depth,
      writer_ := none }
  else
    let role_attr : RoleAttributes :=
      { channel_name := channel, message_type := type, proto_desc := proto_desc,
        qos_depth := qos_depth }
    { channel_name_ := channel, data_type_ := type, qos_depth_ := qos_depth,
      writer_ := node.CreateWriter role_attr }

/-- How a call of `PyWriter::write` ends: it returns an `int`, or it dereferences
the null `writer_`, which is undefined behaviour. -/
inductive WriteResult
  | returned (code : Int)
  | null_dereference
deriving DecidableEq, Repr

/-- `PyWriter::write`: builds the Envelope and returns `writer_->Write(message)`,
the `bool` converted to `int`; there is no test of `writer_`. -/
def PyWriter.write (w : PyWriter) (data : String) : WriteResult :=
  let message : PyMessageWrap := { data := data, type_name := w.data_type_ }
  match w.writer_ with
  | none => WriteResult.null_dereference
  | some writer => WriteResult.returned (if writer.Write message then 1 else 0)

/-! ## PyService -/

/-- What a notification hook can do to the service that calls it: the hook is a C
function without access to the private queues, so it acts through the public
`read()` and `write(data)`, any number of times, each call free to depend on
what the reads before it returned. -/
inductive ServiceCall
  | done
  | read (next : String → ServiceCall)
  | write (data : String) (next : ServiceCall)

/-- The data members of `PyService`; `func_` is the registered hook, given the
service name. -/
structure PyService where
  service_name_ : String
  data_type_ : String
  func_ : Option (String → ServiceCall)
  request_cache_ : List String
  response_cache_ : List String
  service_ : Bool

/-- `PyService::PyService`: both queues empty, no hook. -/
def PyService.new (service_name data_type : String) (node : Node) : PyService :=
  { service_name_ := service_name, data_type_ := data_type, func_ := none,
    request_cache_ := [], response_cache_ := [],
    service_ := node.CreateService service_name }

/-- `PyService::register_func`. -/
def PyService.register_func (s : PyService) (func : String → ServiceCall) : PyService :=
  { s with func_ := some func }

/-- `PyService::read`: non-blocking pop of the oldest request, `""` when there is
none. -/
def PyService.read (s : PyService) : String × PyService :=
  let p := take_front "" s.request_cache_
  (p.1, { s with request_cache_ := p.2 })

/-- `PyService::write`: `push_back` on the response queue, returns `SUCC`. -/
def PyService.write (s : PyService) (data : String) : ReturnCode × PyService :=
  (ReturnCode.SUCC, { s with response_cache_ := s.response_cache_ ++ [data] })

/-- The calls of a hook, run against the service. -/
def PyService.run_hook : ServiceCall → PyService → PyService
  | ServiceCall.done, s => s
  | ServiceCall.read next, s => PyService.run_hook (next s.read.1) s.read.2
  | ServiceCall.write data next, s => PyService.run_hook next (s.write data).2

/-- The first half of `PyService::cb`: `request_cache_.push_back(request->data())`,
then the hook, if one is registered, with the service name. -/
def PyService.cb_receive (s : PyService) (request : PyMessageWrap) : PyService :=
  let s1 : PyService := { s with request_cache_ := s.request_cache_ ++ [request.data] }
  match s1.func_ with
  | some func => PyService.run_hook (func s1.service_name_) s1
  | none => s1

/-- The second half of `PyService::cb`, its completion step: pop the oldest
response, or keep `""`, and wrap it with the data type as the reply. -/
def PyService.cb_complete (s : PyService) : PyMessageWrap × PyService :=
  let p := take_front "" s.response_cache_
  ({ data := p.1, type_name := s.data_type_ }, { s with response_cache_ := p.2 })

/-- `PyService::cb`, the handler of one inbound request: the reply and the service
afterwards. -/
def PyService.cb (s : PyService) (request : PyMessageWrap) : PyMessageWrap × PyService :=
  (s.cb_receive request).cb_complete

/-- Inbound requests handled one after the other. -/
def PyService.handle_all (s : PyService) (requests : List PyMessageWrap) : PyService :=
  requests.foldl (fun st request => (st.cb request).2) s

/-- The results of `n` successive calls of `PyService::read` and the service after
them. -/
def PyService.read_n (s : PyService) : Nat → List String × PyService
  | 0 => ([], s)
  | n + 1 =>
    let rest := s.read.2.read_n n
    (s.read.1 :: rest.1, rest.2)

/-- Successive calls of `PyService::write`. -/
def PyService.write_all (s : PyService) (datas : List String) : PyService :=
  datas.foldl (fun st data => (st.write data).2) s

/-- The replies of `n` successive completion steps and the service after them. -/
def PyService.complete_n (s : PyService) : Nat → List PyMessageWrap × PyService
  | 0 => ([], s)
  | n + 1 =>
    let rest := s.cb_complete.2.complete_n n
    (s.cb_complete.1 :: rest.1, rest.2)

/-- The hook of a service that answers with `f`: it takes the request with `read()`
and publishes `f` of it with `write()`. -/
def answer_with (f : String → String) : String → ServiceCall :=
  fun _ => ServiceCall.read (fun request => ServiceCall.write (f request) ServiceCall.done)

/-! ## PyClient and PyNode -/

/-- The data members of `PyClient`. -/
structure PyClient where
  service_name_ : String
  data_type_ : String
  client_ : Option Client

/-- `PyClient::PyClient`. -/
def PyClient.new (name data_type : String) (node : Node) : PyClient :=
  { service_name_ := name, data_type_ := data_type, client_ := node.CreateClient name }

/-- The data members of `PyNode`; `node_` is the owning pointer, null after
`shutdown`. -/
structure PyNode where
  node_name_ : String
  node_ : Option Node

/-- `PyNode::PyNode`; `CreateNode` is the factory of the transport. -/
def PyNode.new (CreateNode : String → Option Node) (node_name : String) : PyNode :=
  { node_name_ := node_name, node_ := CreateNode node_name }

/-- `PyNode::shutdown`: `node_.reset()`. -/
def PyNode.shutdown (n : PyNode) : PyNode :=
  { n with node_ := none }

/-- `PyNode::create_writer`: a new `PyWriter` when `node_` is set, else null. -/
def PyNode.create_writer (GetDescriptorString : String → String) (n : PyNode)
    (channel type : String) (qos_depth : Nat) : Option PyWriter :=
  match n.node_ with
  | some node => some (PyWriter.new GetDescriptorString channel type qos_depth node)
  | none => none

/-- `PyNode::create_reader`. -/
def PyNode.create_reader (n : PyNode) (channel type : String) : Option PyReader :=
  match n.node_ with
  | some node => some (PyReader.new channel type node)
  | none => none

/-- `PyNode::create_service`. -/
def PyNode.create_service (n : PyNode) (service type : String) : Option PyService :=
  match n.node_ with
  | some node => some (PyService.new service type node)
  | none => none

/-- `PyNode::create_client`. -/
def PyNode.create_client (n : PyNode) (service type : String) : Option PyClient :=
  match n.node_ with
  | some node => some (PyClient.new service type node)
  | none => none

/-! ## Sample values -/

/-- A transport node whose every creation succeeds and whose writers accept every
Envelope. -/
def sample_node : Node :=
  { CreateWriter := fun attr => some { role_attr := attr, Write := fun _ => true },
    CreateReader := fun _ => true,
    CreateService := fun _ => true,
    CreateClient := fun _ => some { SendRequest := fun _ => none } }

/-- A schema lookup that knows the type `"Pose"` only. -/
def sample_factory : String → String :=
  fun type => if type = "Pose" then "descriptor of Pose" else ""

/-- A reader of channel `"pose"` as its constructor leaves it. -/
def sample_reader : PyReader := PyReader.new "pose" "Pose" sample_node

/-- The sample reader with the queue `q`. -/
def sample_reader_holding (q : List String) : PyReader :=
  { sample_reader with cache_ := q }

/-- A service `"echo"` as its constructor leaves it. -/
def sample_service : PyService := PyService.new "echo" "Text" sample_node

/-- The sample service with the response queue `q`. -/
def sample_service_answering (q : List String) : PyService :=
  { sample_service with response_cache_ := q }

/-- Raw deliveries of the given payloads. -/
def raw_deliveries (payloads : List String) : List Delivery :=
  payloads.map (fun payload => Delivery.raw { message := payload })

/-! ## PyChannelUtils -/

/-- The lookup of a `std::unordered_map<std::string, std::vector<std::string>>`,
kept as a list of entries with at most one entry for a key; the position of an
entry carries no meaning. -/
def roles_find : List (String × List String) → String → Option (List String)
  | [], _ => none
  | (k, v) :: rest, key => if k = key then some v else roles_find rest key

/-- The statement `roles_info[channel_name].emplace_back(msgdata)`: `operator[]`
makes an entry with an empty vector when the key has none, and the string is
appended to the vector of the entry. -/
def roles_emplace_back :
    List (String × List String) → String → String → List (String × List String)
  | [], channel_name, msgdata => [(channel_name, [msgdata])]
  | (k, v) :: rest, channel_name, msgdata =>
    if k = channel_name then (k, v ++ [msgdata]) :: rest
    else (k, v) :: roles_emplace_back rest channel_name msgdata

/-- One of the two `for (auto& attr : tmpVec)` loops of `get_channels_info`. -/
def add_roles (SerializeToString : RoleAttributes → String)
    (roles_info : List (String × List String)) (tmpVec : List RoleAttributes) :
    List (String × List String) :=
  tmpVec.foldl
    (fun info attr => roles_emplace_back info attr.channel_name (SerializeToString attr))
    roles_info

/-- `PyChannelUtils::get_channels_info`.  `GetWriters` and `GetReaders` are what the
channel manager of the topology reports after the `sleep`, `SerializeToString` is
the protobuf serialisation of a `RoleAttributes`. -/
def get_channels_info (SerializeToString : RoleAttributes → String)
    (GetWriters GetReaders : List RoleAttributes) : List (String × List String) :=
  add_roles SerializeToString (add_roles SerializeToString [] GetWriters) GetReaders

/-! ## IntervalPool -/

/-- Modelled from the spec: `struct Interval` (declared in interval_pool.h, outside
`interval_pool.cc`), with the two `uint64_t` members the code reads and writes. -/
structure Interval where
  begin_time : Nat
  end_time : Nat
deriving DecidableEq, Repr

/-- The order `std::sort` leaves behind for the comparator
`x.begin_time < y.begin_time`: no element is less than one before it, that is,
`begin_time` ascends. -/
def Interval.begin_le (x y : Interval) : Prop := x.begin_time ≤ y.begin_time

instance Interval.begin_le_decidable : DecidableRel Interval.begin_le :=
  fun x y => inferInstanceAs (Decidable (x.begin_time ≤ y.begin_time))

instance Interval.begin_le_total : IsTotal Interval Interval.begin_le :=
  ⟨fun x y => Nat.le_total x.begin_time y.begin_time⟩

instance Interval.begin_le_trans : IsTrans Interval Interval.begin_le :=
  ⟨fun _ _ _ h1 h2 => Nat.le_trans h1 h2⟩

/-- `insert` of the helper set `accu_end_values_`, an ordered set of `uint64_t`: a
value already present is not inserted again.  The code looks at the set through
`empty()` only and erases by value, so a multiset would behave the same. -/
def set_insert (v : Nat) (s : List Nat) : List Nat :=
  if v ∈ s then s else List.orderedInsert (fun a b => a ≤ b) v s

/-- `erase(key)` of the helper set: every element equal to the key goes. -/
def set_erase (v : Nat) (s : List Nat) : List Nat :=
  s.filter (fun a => decide (a ≠ v))

/-- Modelled from the spec: the data members of `IntervalPool` (declared in
interval_pool.h, outside `interval_pool.cc`): the vector `pool_`, the iterator
`pool_iter_` as an index into it (`pool_.length` is `end()`), and the helper set
`accu_end_values_`. -/
structure IntervalPool where
  pool_ : List Interval
  pool_iter_ : Nat
  accu_end_values_ : List Nat
deriving DecidableEq, Repr

/-- `IntervalPool::ReorgIntervals`: sort by `begin_time` ascending, put the iterator
at `begin()`, clear the helper set. -/
def IntervalPool.ReorgIntervals (p : IntervalPool) : IntervalPool :=
  { pool_ := p.pool_.insertionSort Interval.begin_le,
    pool_iter_ := 0,
    accu_end_values_ := [] }

/-- The `while` loop of `MessageFallIntoRange`, run over the intervals from the
iterator on: while the interval under the iterator has `msg_time >= begin_time`,
its `end_time` is inserted and the iterator moves on.  The result is the iterator
and the helper set after the loop. -/
def IntervalPool.advance (msg_time : Nat) : List Interval → Nat → List Nat → Nat × List Nat
  | [], iter, accu => (iter, accu)
  | interval :: rest, iter, accu =>
    if msg_time ≥ interval.begin_time then
      IntervalPool.advance msg_time rest (iter + 1) (set_insert interval.end_time accu)
    else
      (iter, accu)

/-- `IntervalPool::MessageFallIntoRange`: the returned `found` and the pool after
the call. -/
def IntervalPool.MessageFallIntoRange (p : IntervalPool) (msg_time : Nat) :
    Bool × IntervalPool :=
  let after := IntervalPool.advance msg_time (p.pool_.drop p.pool_iter_) p.pool_iter_
    p.accu_end_values_
  let found := !after.2.isEmpty
  (found, { p with pool_iter_ := after.1, accu_end_values_ := set_erase msg_time after.2 })

/-- The results of `MessageFallIntoRange` for the message times of a list, checked
one after the other, and the pool after them. -/
def IntervalPool.check_all (p : IntervalPool) : List Nat → List Bool × IntervalPool
  | [] => ([], p)
  | msg_time :: later =>
    let rest := (p.MessageFallIntoRange msg_time).2.check_all later
    ((p.MessageFallIntoRange msg_time).1 :: rest.1, rest.2)

/-- Some interval of the list has `begin_time <= t <= end_time`. -/
def in_some_range (intervals : List Interval) (t : Nat) : Prop :=
  ∃ interval ∈ intervals, interval.begin_time ≤ t ∧ t ≤ interval.end_time

instance in_some_range_decidable (intervals : List Interval) (t : Nat) :
    Decidable (in_some_range intervals t) := by
  unfold in_some_range
  infer_instance

/-- The invariant of the iteration between two checks, `bound` being a lower bound
of the message times still to come: an interval of the pool is still ahead of
the iterator, or its `end_time`, when not below the bound, is in the helper set. -/
def IntervalPool.covers_from (p : IntervalPool) (bound : Nat) : Prop :=
  ∀ interval ∈ p.pool_,
    interval ∈ p.pool_.drop p.pool_iter_
      ∨ (bound ≤ interval.end_time → interval.end_time ∈ p.accu_end_values_)

/-! ## FillPerceptionPolygon -/

/-- Modelled from the spec: `perception::Point` (a generated protobuf class, declared
outside `l3_perception_util.cc`): three optional coordinates, unset in a new
point.  `α` is the type of the coordinates, the reals for exact arithmetic. -/
structure Point (α : Type) where
  x : Option α
  y : Option α
  z : Option α
deriving DecidableEq, Repr

/-- `set_x` of a point. -/
def Point.set_x {α : Type} (p : Point α) (v : α) : Point α := { p with x := some v }

/-- `set_y` of a point. -/
def Point.set_y {α : Type} (p : Point α) (v : α) : Point α := { p with y := some v }

/-- `set_z` of a point. -/
def Point.set_z {α : Type} (p : Point α) (v : α) : Point α := { p with z := some v }

/-- Modelled from the spec: `perception::PerceptionObstacle` (a generated protobuf
class, declared outside `l3_perception_util.cc`), as far as
`FillPerceptionPolygon` touches it: the repeated field `polygon_point`. -/
structure PerceptionObstacle (α : Type) where
  polygon_point : List (Point α)
deriving DecidableEq, Repr

/-- `add_polygon_point()`: a new point with no coordinate set, at the end. -/
def PerceptionObstacle.add_polygon_point {α : Type} (o : PerceptionObstacle α) :
    PerceptionObstacle α :=
  { polygon_point := o.polygon_point ++ [{ x := none, y := none, z := none }] }

/-- The element at index `i` replaced by `f` of it. -/
def modify_at {β : Type} (f : β → β) : Nat → List β → List β
  | _, [] => []
  | 0, b :: bs => f b :: bs
  | i + 1, b :: bs => b :: modify_at f i bs

/-- A setter applied through `mutable_polygon_point(i)`. -/
def PerceptionObstacle.mutable_polygon_point {α : Type} (o : PerceptionObstacle α)
    (i : Nat) (f : Point α → Point α) : PerceptionObstacle α :=
  { polygon_point := modify_at f i o.polygon_point }

/-- `FillPerceptionPolygon`, with `cos` and `sin` for `std::cos` and `std::sin`: eight
points are added, then the loops over `i = 0..7` set `z`, `x` and `y` of the point
at index `i`. -/
def FillPerceptionPolygon {α : Type} [Field α] (cos sin : α → α)
    (perception_obstacle : PerceptionObstacle α)
    (mid_x mid_y mid_z length width height heading : α) : PerceptionObstacle α :=
  let o1 := (List.range 8).foldl (fun o _ => o.add_polygon_point) perception_obstacle
  let o2 := (List.range 8).foldl
    (fun o i =>
      let sign : α := if i % 2 = 0 then 1 else -1
      o.mutable_polygon_point i (fun p => p.set_z (mid_z + sign * height / 2)))
    o1
  let o3 := (List.range 8).foldl
    (fun o i =>
      if i = 0 ∨ i = 1 then
        o.mutable_polygon_point i (fun p => p.set_x
          (mid_x + length * cos heading / 2 + width * sin heading / 2))
      else if i = 2 ∨ i = 3 then
        o.mutable_polygon_point i (fun p => p.set_x
          (mid_x + length * cos heading / 2 - width * sin heading / 2))
      else if i = 4 ∨ i = 5 then
        o.mutable_polygon_point i (fun p => p.set_x
          (mid_x - length * cos heading / 2 - width * sin heading / 2))
      else
        o.mutable_polygon_point i (fun p => p.set_x
          (mid_x - length * cos heading / 2 + width * sin heading / 2)))
    o2
  (List.range 8).foldl
    (fun o i =>
      if i = 0 ∨ i = 1 then
        o.mutable_polygon_point i (fun p => p.set_y
          (mid_y + length * sin heading / 2 - width * cos heading / 2))
      else if i = 2 ∨ i = 3 then
        o.mutable_polygon_point i (fun p => p.set_y
          (mid_y + length * sin heading / 2 + width * cos heading / 2))
      else if i = 4 ∨ i = 5 then
        o.mutable_polygon_point i (fun p => p.set_y
          (mid_y - length * sin heading / 2 + width * cos heading / 2))
      else
        o.mutable_polygon_point i (fun p => p.set_y
          (mid_y - length * sin heading / 2 - width * cos heading / 2)))
    o3

/-- The values of an optional coordinate over the points, `0` standing for an
unset one. -/
def coordinates {α : Type} [Field α] (points : List (Point α))
    (coordinate : Point α → Option α) : List α :=
  points.map (fun p => (coordinate p).getD 0)

/-- The mean of a coordinate over the points. -/
def coordinate_mean {α : Type} [Field α] (points : List (Point α))
    (coordinate : Point α → Option α) : α :=
  (coordinates points coordinate).sum / (points.length : α)

/-! ## More sample values -/

/-- A node that is alive: its transport node is the sample node. -/
def sample_py_node : PyNode := PyNode.new (fun _ => some sample_node) "talker"

/-- The sample reader with a hook registered. -/
def sample_reader_hooked : PyReader := sample_reader.register_func (fun _ => 0)

/-- Role attributes for a channel, serialised below by their message type. -/
def sample_role (channel_name message_type : String) : RoleAttributes :=
  { channel_name := channel_name, message_type := message_type, proto_desc := "",
    qos_depth := 1 }

/-! ## Lemmas on the reader queue -/

theorem PyReader.deliver_cache (r : PyReader) (d : Delivery) :
    (r.deliver d).cache_ = r.cache_ ++ [d.payload] := by
  cases d <;> rfl

theorem PyReader.deliver_all_cache (ds : List Delivery) (r : PyReader) :
    (r.deliver_all ds).cache_ = r.cache_ ++ ds.map Delivery.payload := by
  induction ds generalizing r with
  | nil => simp [PyReader.deliver_all]
  | cons d ds ih =>
    have h := ih (r.deliver d)
    simp only [PyReader.deliver_all, List.foldl_cons] at h ⊢
    rw [h, PyReader.deliver_cache]
    simp

theorem PyReader.read_false_cons (r : PyReader) (m : String) (rest : List String)
    (h : r.cache_ = m :: rest) :
    r.read false = (ReadResult.returned m, { r with cache_ := rest }) := by
  simp [PyReader.read, take_front, h]

theorem PyReader.read_false_nil (r : PyReader) (h : r.cache_ = []) :
    r.read false = (ReadResult.returned "", r) := by
  cases r
  simp only at h
  subst h
  rfl

theorem PyReader.read_n_false (ms : List String) (r : PyReader) (rest : List String)
    (h : r.cache_ = ms ++ rest) :
    r.read_n false ms.length
      = (ms.map ReadResult.returned, { r with cache_ := rest }) := by
  induction ms generalizing r with
  | nil =>
    cases r
    simp only [List.nil_append] at h
    subst h
    rfl
  | cons m ms ih =>
    have h1 : r.cache_ = m :: (ms ++ rest) := by simpa using h
    have h2 := ih { r with cache_ := ms ++ rest } rfl
    simp only [List.length_cons, PyReader.read_n, PyReader.read_false_cons r m _ h1,
      List.map_cons]
    rw [h2]

theorem PyReader.read_true_two (r : PyReader) (e1 e2 : String) (rest : List String)
    (h : r.cache_ = e1 :: e2 :: rest) :
    r.read true = (ReadResult.returned e2, { r with cache_ := rest }) := by
  simp [PyReader.read, PyReader.wait_and_take, take_front, h]

theorem PyReader.read_true_one (r : PyReader) (e1 : String) (h : r.cache_ = [e1]) :
    r.read true = (ReadResult.waiting e1, { r with cache_ := [] }) := by
  simp [PyReader.read, PyReader.wait_and_take, take_front, h]

theorem PyReader.read_true_nil (r : PyReader) (h : r.cache_ = []) :
    r.read true = (ReadResult.waiting "", r) := by
  cases r
  simp only at h
  subst h
  rfl

theorem PyReader.run_append (c : ReadResult × PyReader) (es fs : List ReaderEvent) :
    PyReader.run c (es ++ fs) = PyReader.run (PyReader.run c es) fs := by
  simp [PyReader.run, List.foldl_append]

theorem PyReader.run_wakes_waiting (n : Nat) (msg : String) (r : PyReader)
    (h : r.cache_ = []) :
    PyReader.run (ReadResult.waiting msg, r) (List.replicate n ReaderEvent.wake)
      = (ReadResult.waiting msg, r) := by
  induction n with
  | zero => rfl
  | succ n ih =>
    have hw : r.wait_and_take msg = (ReadResult.waiting msg, r) := by
      simp [PyReader.wait_and_take, h]
    simp only [PyReader.run, List.replicate_succ, List.foldl_cons, PyReader.step,
      PyReader.resume, hw] at ih ⊢
    exact ih

theorem PyReader.run_wakes_returned (n : Nat) (msg : String) (r : PyReader) :
    PyReader.run (ReadResult.returned msg, r) (List.replicate n ReaderEvent.wake)
      = (ReadResult.returned msg, r) := by
  induction n with
  | zero => rfl
  | succ n ih =>
    simp only [PyReader.run, List.replicate_succ, List.foldl_cons, PyReader.step,
      PyReader.resume] at ih ⊢
    exact ih

/-! ## Lemmas on the service queues -/

theorem PyService.cb_no_hook (s : PyService) (request : PyMessageWrap)
    (hf : s.func_ = none) :
    (s.cb request).2.request_cache_ = s.request_cache_ ++ [request.data]
      ∧ (s.cb request).2.func_ = none := by
  simp [PyService.cb, PyService.cb_receive, PyService.cb_complete, hf]

theorem PyService.handle_all_no_hook (requests : List PyMessageWrap) (s : PyService)
    (hf : s.func_ = none) :
    (s.handle_all requests).request_cache_
        = s.request_cache_ ++ requests.map PyMessageWrap.data
      ∧ (s.handle_all requests).func_ = none := by
  induction requests generalizing s with
  | nil => simp [PyService.handle_all, hf]
  | cons request requests ih =>
    have h1 := PyService.cb_no_hook s request hf
    have h2 := ih (s.cb request).2 h1.2
    simp only [PyService.handle_all, List.foldl_cons] at h2 ⊢
    rw [h2.1, h2.2, h1.1]
    simp

theorem PyService.read_n_spec (ms : List String) (s : PyService) (rest : List String)
    (h : s.request_cache_ = ms ++ rest) :
    s.read_n ms.length = (ms, { s with request_cache_ := rest }) := by
  induction ms generalizing s with
  | nil =>
    cases s
    simp only [List.nil_append] at h
    subst h
    rfl
  | cons m ms ih =>
    have h1 : s.request_cache_ = m :: (ms ++ rest) := by simpa using h
    have hr : s.read = (m, { s with request_cache_ := ms ++ rest }) := by
      simp [PyService.read, take_front, h1]
    have h2 := ih { s with request_cache_ := ms ++ rest } rfl
    simp only [List.length_cons, PyService.read_n, hr]
    rw [h2]

theorem PyService.write_all_spec (datas : List String) (s : PyService) :
    s.write_all datas = { s with response_cache_ := s.response_cache_ ++ datas } := by
  induction datas generalizing s with
  | nil => simp [PyService.write_all]
  | cons data datas ih =>
    have h := ih (s.write data).2
    simp only [PyService.write_all, List.foldl_cons] at h ⊢
    rw [h]
    simp [PyService.write]

theorem PyService.complete_n_spec (ms : List String) (s : PyService) (rest : List String)
    (h : s.response_cache_ = ms ++ rest) :
    s.complete_n ms.length
      = (ms.map (fun m => ({ data := m, type_name := s.data_type_ } : PyMessageWrap)),
         { s with response_cache_ := rest }) := by
  induction ms generalizing s with
  | nil =>
    cases s
    simp only [List.nil_append] at h
    subst h
    rfl
  | cons m ms ih =>
    have h1 : s.response_cache_ = m :: (ms ++ rest) := by simpa using h
    have hc : s.cb_complete
        = ({ data := m, type_name := s.data_type_ },
           { s with response_cache_ := ms ++ rest }) := by
      simp [PyService.cb_complete, take_front, h1]
    have h2 := ih { s with response_cache_ := ms ++ rest } rfl
    simp only [List.length_cons, PyService.complete_n, hc, List.map_cons]
    rw [h2]

/-! ## Lemmas on the roles map -/

theorem roles_find_emplace_back (m : List (String × List String))
    (channel_name msgdata c : String) :
    roles_find (roles_emplace_back m channel_name msgdata) c
      = if channel_name = c then some ((roles_find m c).getD [] ++ [msgdata])
        else roles_find m c := by
  induction m with
  | nil =>
    by_cases h : channel_name = c <;> simp [roles_emplace_back, roles_find, h]
  | cons e m ih =>
    obtain ⟨k, v⟩ := e
    by_cases hk : k = channel_name
    · by_cases hc : channel_name = c
      · simp [roles_emplace_back, roles_find, hk, hc]
      · simp [roles_emplace_back, roles_find, hk, hc]
    · by_cases hkc : k = c
      · have hc : ¬ channel_name = c := fun h => hk (hkc.trans h.symm)
        have hc2 : ¬ c = channel_name := fun h => hc h.symm
        simp [roles_emplace_back, roles_find, hkc, hc, hc2]
      · simp [roles_emplace_back, roles_find, hk, hkc, ih]

theorem roles_keys_emplace_back (m : List (String × List String))
    (channel_name msgdata : String) :
    (roles_emplace_back m channel_name msgdata).map Prod.fst
      = if channel_name ∈ m.map Prod.fst then m.map Prod.fst
        else m.map Prod.fst ++ [channel_name] := by
  induction m with
  | nil => simp [roles_emplace_back]
  | cons e m ih =>
    obtain ⟨k, v⟩ := e
    by_cases hk : k = channel_name
    · simp [roles_emplace_back, hk]
    · have hk2 : ¬ channel_name = k := fun h => hk h.symm
      by_cases hm : channel_name ∈ m.map Prod.fst
      · simp only [roles_emplace_back, hk, if_false, List.map_cons, ih, hm, if_true,
          List.mem_cons, or_true]
      · simp only [roles_emplace_back, hk, if_false, List.map_cons, ih, hm,
          List.mem_cons, hk2, or_self, List.cons_append]

theorem roles_keys_nodup_emplace_back (m : List (String × List String))
    (channel_name msgdata : String) (h : (m.map Prod.fst).Nodup) :
    ((roles_emplace_back m channel_name msgdata).map Prod.fst).Nodup := by
  rw [roles_keys_emplace_back]
  split
  · exact h
  · rename_i hm
    rw [List.nodup_append]
    refine ⟨h, List.nodup_singleton _, ?_⟩
    intro a ha hb
    simp only [List.mem_singleton] at hb
    exact hm (hb ▸ ha)

theorem add_roles_find (SerializeToString : RoleAttributes → String)
    (tmpVec : List RoleAttributes) (m : List (String × List String)) (c : String) :
    roles_find (add_roles SerializeToString m tmpVec) c
      = if c ∈ tmpVec.map RoleAttributes.channel_name then
          some ((roles_find m c).getD []
            ++ (tmpVec.filter (fun attr => attr.channel_name = c)).map SerializeToString)
        else roles_find m c := by
  induction tmpVec generalizing m with
  | nil => simp [add_roles]
  | cons attr tmpVec ih =>
    have h := ih (roles_emplace_back m attr.channel_name (SerializeToString attr))
    simp only [add_roles, List.foldl_cons] at h ⊢
    rw [h, roles_find_emplace_back]
    by_cases ha : attr.channel_name = c
    · by_cases hc : c ∈ tmpVec.map RoleAttributes.channel_name
      · simp [ha, hc]
      · simp [ha, hc]
        intro x hx hxc
        exact absurd (List.mem_map.mpr ⟨x, hx, hxc⟩) hc
    · have ha2 : ¬ c = attr.channel_name := fun h => ha h.symm
      by_cases hc : c ∈ tmpVec.map RoleAttributes.channel_name
      · simp [ha, ha2, hc]
      · simp [ha, ha2, hc]

theorem add_roles_keys_nodup (SerializeToString : RoleAttributes → String)
    (tmpVec : List RoleAttributes) (m : List (String × List String))
    (h : (m.map Prod.fst).Nodup) :
    ((add_roles SerializeToString m tmpVec).map Prod.fst).Nodup := by
  induction tmpVec generalizing m with
  | nil => simpa [add_roles] using h
  | cons attr tmpVec ih =>
    have h2 := ih (roles_emplace_back m attr.channel_name (SerializeToString attr))
      (roles_keys_nodup_emplace_back m _ _ h)
    simpa [add_roles] using h2

theorem roles_find_isSome (m : List (String × List String)) (c : String) :
    (roles_find m c).isSome = true ↔ c ∈ m.map Prod.fst := by
  induction m with
  | nil => simp [roles_find]
  | cons e m ih =>
    obtain ⟨k, v⟩ := e
    by_cases hk : k = c
    · simp [roles_find, hk]
    · have hk2 : ¬ c = k := fun h => hk h.symm
      simp only [roles_find, hk, if_false, ih, List.map_cons, List.mem_cons, hk2, false_or]

/-! ## Lemmas on the interval pool -/

theorem set_insert_mem (v : Nat) (s : List Nat) (a : Nat) :
    a ∈ set_insert v s ↔ a = v ∨ a ∈ s := by
  unfold set_insert
  split
  · rename_i hv
    constructor
    · intro h; exact Or.inr h
    · intro h
      rcases h with h | h
      · exact h ▸ hv
      · exact h
  · exact List.mem_orderedInsert _

theorem set_erase_mem (v : Nat) (s : List Nat) (a : Nat) :
    a ∈ set_erase v s ↔ a ∈ s ∧ a ≠ v := by
  simp [set_erase]

theorem IntervalPool.advance_spec (msg_time : Nat) (rem : List Interval) :
    ∀ (iter : Nat) (accu : List Nat),
      ∃ pre post : List Interval,
        rem = pre ++ post
          ∧ (IntervalPool.advance msg_time rem iter accu).1 = iter + pre.length
          ∧ (∀ a : Nat, a ∈ (IntervalPool.advance msg_time rem iter accu).2
              ↔ a ∈ accu ∨ ∃ interval ∈ pre, interval.end_time = a)
          ∧ (List.Sorted Interval.begin_le rem →
              ∀ interval ∈ post, msg_time < interval.begin_time) := by
  induction rem with
  | nil =>
    intro iter accu
    exact ⟨[], [], rfl, rfl, by simp [IntervalPool.advance], by simp⟩
  | cons first rest ih =>
    intro iter accu
    by_cases hb : msg_time ≥ first.begin_time
    · obtain ⟨pre, post, hsplit, hiter, hmem, hpost⟩ :=
        ih (iter + 1) (set_insert first.end_time accu)
      refine ⟨first :: pre, post, by rw [hsplit]; rfl, ?_, ?_, ?_⟩
      · simp only [IntervalPool.advance, hb, if_true, hiter, List.length_cons]
        omega
      · intro a
        simp only [IntervalPool.advance, hb, if_true, hmem, set_insert_mem,
          List.mem_cons, exists_eq_or_imp]
        constructor
        · rintro ((h | h) | h)
          · exact Or.inr (Or.inl h.symm)
          · exact Or.inl h
          · exact Or.inr (Or.inr h)
        · rintro (h | h | h)
          · exact Or.inl (Or.inr h)
          · exact Or.inl (Or.inl h.symm)
          · exact Or.inr h
      · intro hsorted
        exact hpost (List.Sorted.of_cons hsorted)
    · refine ⟨[], first :: rest, rfl, ?_, ?_, ?_⟩
      · simp [IntervalPool.advance, hb]
      · intro a
        simp [IntervalPool.advance, hb]
      · intro hsorted interval hmem
        have hlt : msg_time < first.begin_time := Nat.lt_of_not_ge hb
        rcases List.mem_cons.mp hmem with h | h
        · rw [h]; exact hlt
        · exact Nat.lt_of_lt_of_le hlt (List.rel_of_sorted_cons hsorted interval h)

theorem IntervalPool.MessageFallIntoRange_step (p : IntervalPool) (bound msg_time : Nat)
    (hsorted : List.Sorted Interval.begin_le p.pool_) (hcov : p.covers_from bound)
    (hb : bound ≤ msg_time) :
    (p.MessageFallIntoRange msg_time).2.pool_ = p.pool_
      ∧ (p.MessageFallIntoRange msg_time).2.covers_from (msg_time + 1)
      ∧ (in_some_range p.pool_ msg_time → (p.MessageFallIntoRange msg_time).1 = true) := by
  obtain ⟨pre, post, hsplit, hiter, hmem, hpost⟩ :=
    IntervalPool.advance_spec msg_time (p.pool_.drop p.pool_iter_) p.pool_iter_
      p.accu_end_values_
  have hpost2 := hpost (List.Pairwise.drop hsorted)
  have hdrop : p.pool_.drop (p.pool_iter_ + pre.length) = post := by
    rw [← List.drop_drop, hsplit, List.drop_left]
  refine ⟨rfl, ?_, ?_⟩
  · intro interval hin
    simp only [IntervalPool.MessageFallIntoRange, hiter, hdrop, set_erase_mem, hmem]
    rcases hcov interval hin with h | h
    · rw [hsplit] at h
      rcases List.mem_append.mp h with h1 | h1
      · right
        intro hle
        exact ⟨Or.inr ⟨interval, h1, rfl⟩, by omega⟩
      · left; exact h1
    · right
      intro hle
      exact ⟨Or.inl (h (by omega)), by omega⟩
  · rintro ⟨interval, hin, hbegin, hend⟩
    have hne : (IntervalPool.advance msg_time (p.pool_.drop p.pool_iter_) p.pool_iter_
        p.accu_end_values_).2 ≠ [] := by
      have hx : interval.end_time ∈ (IntervalPool.advance msg_time
          (p.pool_.drop p.pool_iter_) p.pool_iter_ p.accu_end_values_).2 := by
        rw [hmem]
        rcases hcov interval hin with h | h
        · rw [hsplit] at h
          rcases List.mem_append.mp h with h1 | h1
          · exact Or.inr ⟨interval, h1, rfl⟩
          · exact absurd (hpost2 interval h1) (by omega)
        · exact Or.inl (h (by omega))
      exact List.ne_nil_of_mem hx
    simp only [IntervalPool.MessageFallIntoRange, Bool.not_eq_true', List.isEmpty_eq_false]
    exact hne

theorem IntervalPool.check_all_covered (ts : List Nat) :
    ∀ (p : IntervalPool) (bound : Nat),
      List.Sorted Interval.begin_le p.pool_ → p.covers_from bound →
      (∀ t ∈ ts, bound ≤ t) → List.Sorted (fun a b => a < b) ts →
      (p.check_all ts).1.length = ts.length
        ∧ ∀ tb ∈ ts.zip (p.check_all ts).1, in_some_range p.pool_ tb.1 → tb.2 = true := by
  induction ts with
  | nil =>
    intro p bound _ _ _ _
    simp [IntervalPool.check_all]
  | cons t ts ih =>
    intro p bound hsorted hcov hbound hts
    obtain ⟨hpool, hcov2, hfound⟩ :=
      IntervalPool.MessageFallIntoRange_step p bound t hsorted hcov
        (hbound t (List.mem_cons_self t ts))
    have hrest := ih (p.MessageFallIntoRange t).2 (t + 1) (by rw [hpool]; exact hsorted)
      hcov2 (fun u hu => List.rel_of_sorted_cons hts u hu) (List.Sorted.of_cons hts)
    rw [hpool] at hrest
    constructor
    · simp only [IntervalPool.check_all, List.length_cons, hrest.1]
    · intro tb htb
      simp only [IntervalPool.check_all, List.zip_cons_cons, List.mem_cons] at htb
      rcases htb with h | h
      · intro hin
        rw [h]
        exact hfound (by rw [h] at hin; exact hin)
      · exact hrest.2 tb h

/-! ## Lemmas on the perception polygon -/

theorem FillPerceptionPolygon_empty {α : Type} [Field α] (cos sin : α → α)
    (mid_x mid_y mid_z length width height heading : α) :
    (FillPerceptionPolygon cos sin { polygon_point := [] } mid_x mid_y mid_z length width
        height heading).polygon_point
      = [ { x := some (mid_x + length * cos heading / 2 + width * sin heading / 2),
            y := some (mid_y + length * sin heading / 2 - width * cos heading / 2),
            z := some (mid_z + 1 * height / 2) },
          { x := some (mid_x + length * cos heading / 2 + width * sin heading / 2),
            y := some (mid_y + length * sin heading / 2 - width * cos heading / 2),
            z := some (mid_z + -1 * height / 2) },
          { x := some (mid_x + length * cos heading / 2 - width * sin heading / 2),
            y := some (mid_y + length * sin heading / 2 + width * cos heading / 2),
            z := some (mid_z + 1 * height / 2) },
          { x := some (mid_x + length * cos heading / 2 - width * sin heading / 2),
            y := some (mid_y + length * sin heading / 2 + width * cos heading / 2),
            z := some (mid_z + -1 * height / 2) },
          { x := some (mid_x - length * cos heading / 2 - width * sin heading / 2),
            y := some (mid_y - length * sin heading / 2 + width * cos heading / 2),
            z := some (mid_z + 1 * height / 2) },
          { x := some (mid_x - length * cos heading / 2 - width * sin heading / 2),
            y := some (mid_y - length * sin heading / 2 + width * cos heading / 2),
            z := some (mid_z + -1 * height / 2) },
          { x := some (mid_x - length * cos heading / 2 + width * sin heading / 2),
            y := some (mid_y - length * sin heading / 2 - width * cos heading / 2),
            z := some (mid_z + 1 * height / 2) },
          { x := some (mid_x - length * cos heading / 2 + width * sin heading / 2),
            y := some (mid_y - length * sin heading / 2 - width * cos heading / 2),
            z := some (mid_z + -1 * height / 2) } ] := by
  rfl

/-! ## Claims -/

/-- C1: envelopes delivered to a reader whose queue is empty, with no read in
between, come back from as many non-blocking reads in exactly the delivered
order, and the read after them returns the empty string.  The queue of
`PyReader` has no depth, so the statement holds for every number of deliveries. -/
theorem C1_reader_fifo (r : PyReader) (ds : List Delivery) (h : r.cache_ = []) :
    ((r.deliver_all ds).read_n false ds.length).1
        = ds.map (fun d => ReadResult.returned d.payload)
      ∧ (((r.deliver_all ds).read_n false ds.length).2.read false).1
        = ReadResult.returned "" := by
  have hc : (r.deliver_all ds).cache_ = ds.map Delivery.payload ++ [] := by
    rw [PyReader.deliver_all_cache, h]; simp
  have hn := PyReader.read_n_false (ds.map Delivery.payload) (r.deliver_all ds) [] hc
  rw [List.length_map] at hn
  rw [hn]
  constructor
  · simp [List.map_map, Function.comp_def]
  · rw [PyReader.read_false_nil _ rfl]

/-- Witness of C1 at the sample reader and the deliveries "A", "B", "C". -/
theorem C1_reader_fifo_witness :
    sample_reader.cache_ = []
      ∧ ((sample_reader.deliver_all (raw_deliveries ["A", "B", "C"])).read_n false 3).1
          = [ReadResult.returned "A", ReadResult.returned "B", ReadResult.returned "C"]
      ∧ (((sample_reader.deliver_all (raw_deliveries ["A", "B", "C"])).read_n false
            3).2.read false).1 = ReadResult.returned "" :=
  ⟨rfl, C1_reader_fifo sample_reader (raw_deliveries ["A", "B", "C"]) rfl⟩

/-- C2, as stated, fails: `PyReader` takes no queue depth and never drops.  After the
deliveries "A", "B", "C" to a fresh reader three envelopes are buffered, more than
a depth of 2, and three non-blocking reads return "A", "B", "C", not "B", "C" and
the empty string. -/
theorem C2_counterexample_depth_two :
    (sample_reader.deliver_all (raw_deliveries ["A", "B", "C"])).cache_.length = 3
      ∧ ¬ (sample_reader.deliver_all (raw_deliveries ["A", "B", "C"])).cache_.length ≤ 2
      ∧ ((sample_reader.deliver_all (raw_deliveries ["A", "B", "C"])).read_n false 3).1
          = [ReadResult.returned "A", ReadResult.returned "B", ReadResult.returned "C"]
      ∧ ((sample_reader.deliver_all (raw_deliveries ["A", "B", "C"])).read_n false 3).1
          ≠ [ReadResult.returned "B", ReadResult.returned "C", ReadResult.returned ""] := by
  decide

/-- C2, amended: the queue of a reader is not bounded.  After `n` deliveries with no
consumption a freshly constructed reader buffers all `n` envelopes, in delivery
order, and `n` non-blocking reads return all of them in that order, the read
after them returning the empty string: nothing is dropped. -/
theorem C2_reader_queue_keeps_everything (channel type : String) (node : Node)
    (ds : List Delivery) :
    ((PyReader.new channel type node).deliver_all ds).cache_ = ds.map Delivery.payload
      ∧ ((PyReader.new channel type node).deliver_all ds).cache_.length = ds.length
      ∧ (((PyReader.new channel type node).deliver_all ds).read_n false ds.length).1
          = ds.map (fun d => ReadResult.returned d.payload)
      ∧ ((((PyReader.new channel type node).deliver_all ds).read_n false
            ds.length).2.read false).1 = ReadResult.returned "" := by
  have h0 : (PyReader.new channel type node).cache_ = [] := by
    unfold PyReader.new
    split <;> rfl
  have hc : ((PyReader.new channel type node).deliver_all ds).cache_
      = ds.map Delivery.payload := by
    rw [PyReader.deliver_all_cache, h0]; simp
  have hn := PyReader.read_n_false (ds.map Delivery.payload)
    ((PyReader.new channel type node).deliver_all ds) [] (by rw [hc]; simp)
  rw [List.length_map] at hn
  refine ⟨hc, by rw [hc, List.length_map], ?_, ?_⟩
  · rw [hn]; simp [List.map_map, Function.comp_def]
  · rw [hn, PyReader.read_false_nil _ rfl]

/-- C3: the non-blocking read returns the empty string and leaves the reader as it
was when the queue is empty; otherwise it returns the oldest entry and removes
exactly that one, the entries behind it staying as they were. -/
theorem C3_try_read (r : PyReader) :
    (r.cache_ = [] → r.read false = (ReadResult.returned "", r))
      ∧ (∀ (m : String) (rest : List String), r.cache_ = m :: rest →
          r.read false = (ReadResult.returned m, { r with cache_ := rest })) :=
  ⟨PyReader.read_false_nil r, fun m rest h => PyReader.read_false_cons r m rest h⟩

/-- Witness of C3: the empty sample reader, and the sample reader holding "a", "b". -/
theorem C3_try_read_witness :
    sample_reader.read false = (ReadResult.returned "", sample_reader)
      ∧ (sample_reader_holding ["a", "b"]).read false
          = (ReadResult.returned "a",
             { sample_reader_holding ["a", "b"] with cache_ := ["b"] }) :=
  ⟨(C3_try_read sample_reader).1 rfl,
   (C3_try_read (sample_reader_holding ["a", "b"])).2 "a" ["b"] rfl⟩

/-- C4 fails on the code: `read(true)` takes the oldest entry and then falls into
the wait with it.  With the queue "e1", "e2", "e3" it returns "e2" and leaves only
"e3" ("e1" is lost); with the queue "e1" it is suspended, and after a later
delivery of "m" and a wake-up it returns "m", not "e1". -/
theorem C4_blocking_read_loses_the_front :
    (sample_reader_holding ["e1", "e2", "e3"]).read true
        = (ReadResult.returned "e2", sample_reader_holding ["e3"])
      ∧ (sample_reader_holding ["e1"]).read true
        = (ReadResult.waiting "e1", sample_reader_holding [])
      ∧ PyReader.run ((sample_reader_holding ["e1"]).read true)
          [ReaderEvent.deliver (Delivery.raw { message := "m" }), ReaderEvent.wake]
        = (ReadResult.returned "m", sample_reader_holding []) :=
  ⟨rfl, rfl, rfl⟩

/-- C5: on a reader whose queue is empty `read(true)` is suspended, stays suspended
through any number of wake-ups without a delivery, and after one delivery of `d`
and a wake-up it has returned the payload of `d`, the queue being empty again. -/
theorem C5_blocking_read_returns_the_delivery (r : PyReader) (d : Delivery)
    (spurious later : Nat) (h : r.cache_ = []) :
    r.read true = (ReadResult.waiting "", r)
      ∧ PyReader.run (r.read true) (List.replicate spurious ReaderEvent.wake)
          = (ReadResult.waiting "", r)
      ∧ PyReader.run (r.read true)
          (List.replicate spurious ReaderEvent.wake ++ [ReaderEvent.deliver d]
            ++ List.replicate (later + 1) ReaderEvent.wake)
          = (ReadResult.returned d.payload, r) := by
  have h1 := PyReader.read_true_nil r h
  have h2 := PyReader.run_wakes_waiting spurious "" r h
  refine ⟨h1, by rw [h1, h2], ?_⟩
  have hd : (r.deliver d).wait_and_take "" = (ReadResult.returned d.payload, r) := by
    cases r
    simp only at h
    subst h
    cases d <;> rfl
  rw [h1, PyReader.run_append, PyReader.run_append, h2, List.replicate_succ]
  have h3 : PyReader.run (ReadResult.waiting "", r)
      [ReaderEvent.deliver d] = (ReadResult.waiting "", r.deliver d) := rfl
  have h4 : PyReader.run (ReadResult.waiting "", r.deliver d)
      (ReaderEvent.wake :: List.replicate later ReaderEvent.wake)
      = PyReader.run (ReadResult.returned d.payload, r)
          (List.replicate later ReaderEvent.wake) := by
    simp only [PyReader.run, List.foldl_cons, PyReader.step, PyReader.resume, hd]
  rw [h3, h4, PyReader.run_wakes_returned]

/-- Witness of C5: the empty sample reader, two spurious wake-ups, the delivery of
"m", one wake-up. -/
theorem C5_blocking_read_returns_the_delivery_witness :
    sample_reader.cache_ = []
      ∧ PyReader.run (sample_reader.read true)
          ([ReaderEvent.wake, ReaderEvent.wake]
            ++ [ReaderEvent.deliver (Delivery.raw { message := "m" })]
            ++ [ReaderEvent.wake])
          = (ReadResult.returned "m", sample_reader) :=
  ⟨rfl, (C5_blocking_read_returns_the_delivery sample_reader
      (Delivery.raw { message := "m" }) 2 0 rfl).2.2⟩

/-- C6: after `shutdown()` each of `create_writer`, `create_reader`,
`create_service` and `create_client` returns null, whatever the arguments; no
constructor runs. -/
theorem C6_create_after_shutdown (n : PyNode) (GetDescriptorString : String → String)
    (channel type service : String) (qos_depth : Nat) :
    (n.shutdown.create_writer GetDescriptorString channel type qos_depth).isNone = true
      ∧ (n.shutdown.create_reader channel type).isNone = true
      ∧ (n.shutdown.create_service service type).isNone = true
      ∧ (n.shutdown.create_client service type).isNone = true :=
  ⟨rfl, rfl, rfl, rfl⟩

/-- C7: a freshly constructed service whose hook takes the request with `read()` and
publishes `f` of it with `write()` answers the request `P` with the payload `f P`
(tagged with the data type of the service), and both queues are empty
afterwards; the echo service answers "hello" with "hello". -/
theorem C7_service_answers_with_f (service_name data_type : String) (node : Node)
    (f : String → String) (P type_name : String) :
    (((PyService.new service_name data_type node).register_func (answer_with f)).cb
        { data := P, type_name := type_name }).1
        = { data := f P, type_name := data_type }
      ∧ (((PyService.new service_name data_type node).register_func (answer_with f)).cb
          { data := P, type_name := type_name }).2.request_cache_ = []
      ∧ (((PyService.new service_name data_type node).register_func (answer_with f)).cb
          { data := P, type_name := type_name }).2.response_cache_ = []
      ∧ ((sample_service.register_func (answer_with id)).cb
          { data := "hello", type_name := "Text" }).1.data = "hello" :=
  ⟨rfl, rfl, rfl, rfl⟩

/-- C8: the completion step of the handler replies with the oldest entry of the
response queue and removes exactly that entry; on an empty response queue it
replies with the empty payload and leaves the service as it was; so the
responses enqueued by `write()` are handed out in the order of the writes. -/
theorem C8_completion_step (s : PyService) :
    (s.response_cache_ = [] →
        s.cb_complete = ({ data := "", type_name := s.data_type_ }, s))
      ∧ (∀ (m : String) (rest : List String), s.response_cache_ = m :: rest →
          s.cb_complete
            = ({ data := m, type_name := s.data_type_ },
               { s with response_cache_ := rest }))
      ∧ (∀ datas : List String, s.response_cache_ = [] →
          ((s.write_all datas).complete_n datas.length).1
            = datas.map (fun m => ({ data := m, type_name := s.data_type_ } : PyMessageWrap))) := by
  refine ⟨?_, ?_, ?_⟩
  · intro h
    cases s
    simp only at h
    subst h
    rfl
  · intro m rest h
    simp [PyService.cb_complete, take_front, h]
  · intro datas h
    have hw : (s.write_all datas).response_cache_ = datas ++ [] := by
      rw [PyService.write_all_spec, h]; simp
    rw [PyService.complete_n_spec datas (s.write_all datas) [] hw]
    simp [PyService.write_all_spec]

/-- Witness of C8: the sample service with no response, with the responses "x", "y",
and after the writes "x", "y". -/
theorem C8_completion_step_witness :
    sample_service.cb_complete = ({ data := "", type_name := "Text" }, sample_service)
      ∧ (sample_service_answering ["x", "y"]).cb_complete
          = ({ data := "x", type_name := "Text" }, sample_service_answering ["y"])
      ∧ ((sample_service.write_all ["x", "y"]).complete_n 2).1
          = [{ data := "x", type_name := "Text" }, { data := "y", type_name := "Text" }] :=
  ⟨(C8_completion_step sample_service).1 rfl,
   (C8_completion_step (sample_service_answering ["x", "y"])).2.1 "x" ["y"] rfl,
   (C8_completion_step sample_service).2.2 ["x", "y"] rfl⟩

/-- C9: with no hook registered and the request queue empty, the handler appends the
payload of each inbound request exactly once, so after the requests the queue
holds their payloads in arrival order, as many `read()` calls return them in that
order, and the next `read()` returns the empty string; `read()` leaves the
response queue as it was. -/
theorem C9_requests_read_in_arrival_order (s : PyService) (requests : List PyMessageWrap)
    (hq : s.request_cache_ = []) (hf : s.func_ = none) :
    (s.handle_all requests).request_cache_ = requests.map PyMessageWrap.data
      ∧ ((s.handle_all requests).read_n requests.length).1
          = requests.map PyMessageWrap.data
      ∧ (((s.handle_all requests).read_n requests.length).2.read).1 = ""
      ∧ (∀ t : PyService, t.read.2.response_cache_ = t.response_cache_) := by
  have hc : (s.handle_all requests).request_cache_ = requests.map PyMessageWrap.data := by
    rw [(PyService.handle_all_no_hook requests s hf).1, hq]; simp
  have hn := PyService.read_n_spec (requests.map PyMessageWrap.data)
    (s.handle_all requests) [] (by rw [hc]; simp)
  rw [List.length_map] at hn
  refine ⟨hc, by rw [hn], by rw [hn]; rfl, fun t => rfl⟩

/-- Witness of C9: the sample service and the requests "r1", "r2". -/
theorem C9_requests_read_in_arrival_order_witness :
    sample_service.request_cache_ = [] ∧ sample_service.func_ = none
      ∧ ((sample_service.handle_all
            [{ data := "r1", type_name := "Text" }, { data := "r2", type_name := "Text" }]).read_n
          2).1 = ["r1", "r2"] :=
  ⟨rfl, rfl,
   (C9_requests_read_in_arrival_order sample_service
      [{ data := "r1", type_name := "Text" }, { data := "r2", type_name := "Text" }]
      rfl rfl).2.1⟩

/-- C10 fails on the code: for a type the schema lookup does not know the
constructor returns before `writer_` is assigned, and `write` then dereferences
the null `writer_` instead of returning a failure result. -/
theorem C10_write_on_unconstructed_writer :
    (PyWriter.new sample_factory "pose" "Unknown" 1 sample_node).writer_.isNone = true
      ∧ (PyWriter.new sample_factory "pose" "Unknown" 1 sample_node).write "payload"
          = WriteResult.null_dereference
      ∧ (PyWriter.new sample_factory "pose" "Unknown" 1 sample_node).write "payload"
          ≠ WriteResult.returned 0 := by
  decide

/-- C11, as stated, fails: on a live node `create_writer` returns a `PyWriter` object
also for the type "Unknown", whose descriptor the schema lookup does not find. -/
theorem C11_counterexample_unknown_type :
    sample_py_node.node_.isSome = true
      ∧ sample_factory "Unknown" = ""
      ∧ (sample_py_node.create_writer sample_factory "pose" "Unknown" 1).isSome = true := by
  refine ⟨rfl, by decide, rfl⟩

/-- C11, amended: on a live node `create_writer` returns a `PyWriter` object for every
message type, the one its constructor builds; when the schema descriptor of the
type is not resolved, that object has no transport writer (`writer_` is null). -/
theorem C11_create_writer_returns_an_object (n : PyNode) (node : Node)
    (GetDescriptorString : String → String) (channel type : String) (qos_depth : Nat)
    (hlive : n.node_ = some node) :
    n.create_writer GetDescriptorString channel type qos_depth
        = some (PyWriter.new GetDescriptorString channel type qos_depth node)
      ∧ (GetDescriptorString type = "" →
          (PyWriter.new GetDescriptorString channel type qos_depth node).writer_.isNone
            = true) := by
  constructor
  · simp [PyNode.create_writer, hlive]
  · intro h
    simp only [PyWriter.new, h]
    rfl

/-- Witness of C11 amended: the live sample node and the unknown type. -/
theorem C11_create_writer_returns_an_object_witness :
    sample_py_node.node_ = some sample_node
      ∧ sample_factory "Unknown" = ""
      ∧ sample_py_node.create_writer sample_factory "pose" "Unknown" 1
          = some (PyWriter.new sample_factory "pose" "Unknown" 1 sample_node)
      ∧ (PyWriter.new sample_factory "pose" "Unknown" 1 sample_node).writer_.isNone = true :=
  ⟨rfl, by decide,
   (C11_create_writer_returns_an_object sample_py_node sample_node sample_factory
      "pose" "Unknown" 1 rfl).1,
   (C11_create_writer_returns_an_object sample_py_node sample_node sample_factory
      "pose" "Unknown" 1 rfl).2 (by decide)⟩

/-- C12: the map of `get_channels_info` has a key for exactly the channel names
that occur among the writers or the readers, one entry for a key, and the value
for a channel is the serialised writers of that channel in the order reported,
followed by the serialised readers of that channel in the order reported. -/
theorem C12_channel_roles (SerializeToString : RoleAttributes → String)
    (W R : List RoleAttributes) :
    (∀ c : String,
        c ∈ (get_channels_info SerializeToString W R).map Prod.fst
          ↔ c ∈ (W ++ R).map RoleAttributes.channel_name)
      ∧ ((get_channels_info SerializeToString W R).map Prod.fst).Nodup
      ∧ (∀ c : String, c ∈ (W ++ R).map RoleAttributes.channel_name →
          roles_find (get_channels_info SerializeToString W R) c
            = some ((W.filter (fun attr => attr.channel_name = c)).map SerializeToString
                ++ (R.filter (fun attr => attr.channel_name = c)).map SerializeToString)) := by
  have hfind : ∀ c : String,
      roles_find (get_channels_info SerializeToString W R) c
        = if c ∈ (W ++ R).map RoleAttributes.channel_name then
            some ((W.filter (fun attr => attr.channel_name = c)).map SerializeToString
              ++ (R.filter (fun attr => attr.channel_name = c)).map SerializeToString)
          else none := by
    intro c
    unfold get_channels_info
    rw [add_roles_find, add_roles_find]
    by_cases hw : c ∈ W.map RoleAttributes.channel_name
    · by_cases hr : c ∈ R.map RoleAttributes.channel_name
      · simp [hw, hr, roles_find]
      · have hr2 : ∀ x ∈ R, ¬ x.channel_name = c :=
          fun x hx hxc => hr (List.mem_map.mpr ⟨x, hx, hxc⟩)
        have hf : R.filter (fun attr => attr.channel_name = c) = [] := by
          simpa [List.filter_eq_nil_iff] using hr2
        simp [hw, hr, roles_find, hf]
    · have hw2 : ∀ x ∈ W, ¬ x.channel_name = c :=
        fun x hx hxc => hw (List.mem_map.mpr ⟨x, hx, hxc⟩)
      have hf : W.filter (fun attr => attr.channel_name = c) = [] := by
        simpa [List.filter_eq_nil_iff] using hw2
      by_cases hr : c ∈ R.map RoleAttributes.channel_name
      · simp [hw, hr, roles_find, hf]
      · simp [hw, hr, roles_find]
  refine ⟨?_, ?_, ?_⟩
  · intro c
    rw [← roles_find_isSome, hfind c]
    by_cases h : c ∈ (W ++ R).map RoleAttributes.channel_name <;> simp [h]
  · unfold get_channels_info
    exact add_roles_keys_nodup _ _ _ (add_roles_keys_nodup _ _ _ (by simp))
  · intro c hc
    rw [hfind c, if_pos hc]

/-- Witness of C12: writers on "a", "b", "a" and readers on "b", "c", serialised by
their message type; the value for "b" is the writer then the reader. -/
theorem C12_channel_roles_witness :
    roles_find (get_channels_info RoleAttributes.message_type
        [sample_role "a" "w1", sample_role "b" "w2", sample_role "a" "w3"]
        [sample_role "b" "r1", sample_role "c" "r2"]) "b" = some (["w2"] ++ ["r1"]) :=
  (C12_channel_roles RoleAttributes.message_type
    [sample_role "a" "w1", sample_role "b" "w2", sample_role "a" "w3"]
    [sample_role "b" "r1", sample_role "c" "r2"]).2.2 "b" (by decide)

/-- C13, as stated, fails: with a hook registered the callback appends, then calls
the hook, and signals the condition last; the hook runs before the signal. -/
theorem C13_counterexample_hook_before_signal :
    (sample_reader_hooked.cb { data := "m", type_name := "Pose" }).2
        = [Effect.append "m", Effect.hook "pose", Effect.signal]
      ∧ (sample_reader_hooked.cb { data := "m", type_name := "Pose" }).2
        ≠ [Effect.append "m", Effect.signal, Effect.hook "pose"] := by
  decide

/-- C13, amended: for every delivery, through `cb` or `cb_rawmsg`, the callback
appends the payload to the tail of the queue, then invokes the registered hook
(if any) exactly once with the channel name of the reader, and signals the
condition last; without a hook it appends and then signals. -/
theorem C13_callback_order (r : PyReader) (message : PyMessageWrap) (raw : RawMessage) :
    (r.cb message).1.cache_ = r.cache_ ++ [message.data]
      ∧ (r.cb_rawmsg raw).1.cache_ = r.cache_ ++ [raw.message]
      ∧ (r.func_ = none →
          (r.cb message).2 = [Effect.append message.data, Effect.signal]
            ∧ (r.cb_rawmsg raw).2 = [Effect.append raw.message, Effect.signal])
      ∧ (∀ func : String → Int, r.func_ = some func →
          (r.cb message).2
              = [Effect.append message.data, Effect.hook r.channel_name_, Effect.signal]
            ∧ (r.cb_rawmsg raw).2
              = [Effect.append raw.message, Effect.hook r.channel_name_, Effect.signal]) := by
  refine ⟨rfl, rfl, ?_, ?_⟩
  · intro h
    simp [PyReader.cb, PyReader.cb_rawmsg, PyReader.on_message, h]
  · intro func h
    simp [PyReader.cb, PyReader.cb_rawmsg, PyReader.on_message, h]

/-- Witness of C13 amended: the sample reader without a hook and with one. -/
theorem C13_callback_order_witness :
    (sample_reader.cb { data := "m", type_name := "Pose" }).2
        = [Effect.append "m", Effect.signal]
      ∧ (sample_reader_hooked.cb_rawmsg { message := "m" }).2
        = [Effect.append "m", Effect.hook "pose", Effect.signal] :=
  ⟨((C13_callback_order sample_reader { data := "m", type_name := "Pose" }
      { message := "m" }).2.2.1 rfl).1,
   ((C13_callback_order sample_reader_hooked { data := "m", type_name := "Pose" }
      { message := "m" }).2.2.2 (fun _ => 0) rfl).2⟩

/-- C14 fails on the code: an `end_time` leaves the helper set only when a message
time equals it.  For the pool holding the interval 1..2 the check of time 10
returns true although no interval holds 10, and for the pool holding 1..5 the
checks of the times 5, 5 return true and then false although 5 is in 1..5. -/
theorem C14_found_is_not_in_range :
    ((IntervalPool.mk [{ begin_time := 1, end_time := 2 }] 0 []).ReorgIntervals.check_all
        [10]).1 = [true]
      ∧ ¬ in_some_range [{ begin_time := 1, end_time := 2 }] 10
      ∧ ((IntervalPool.mk [{ begin_time := 1, end_time := 5 }] 0 []).ReorgIntervals.check_all
          [5, 5]).1 = [true, false]
      ∧ in_some_range [{ begin_time := 1, end_time := 5 }] 5 := by
  decide

/-- C15: `ReorgIntervals` leaves the pool in ascending order of `begin_time`, a
permutation of the pool before, the iterator at the first interval and the
helper set empty. -/
theorem C15_reorg_intervals (p : IntervalPool) :
    List.Pairwise (fun x y : Interval => x.begin_time ≤ y.begin_time) p.ReorgIntervals.pool_
      ∧ List.Perm p.ReorgIntervals.pool_ p.pool_
      ∧ p.ReorgIntervals.pool_iter_ = 0
      ∧ p.ReorgIntervals.accu_end_values_ = [] :=
  ⟨List.sorted_insertionSort Interval.begin_le p.pool_,
   List.perm_insertionSort Interval.begin_le p.pool_, rfl, rfl⟩

/-- C16: after `ReorgIntervals`, for message times checked in strictly increasing
order, every check returns a result, and the result is true for every checked
time that lies in some interval of the pool. -/
theorem C16_in_range_is_found (p : IntervalPool) (ts : List Nat)
    (hts : List.Sorted (fun a b => a < b) ts) :
    (p.ReorgIntervals.check_all ts).1.length = ts.length
      ∧ ∀ tb ∈ ts.zip (p.ReorgIntervals.check_all ts).1,
          in_some_range p.pool_ tb.1 → tb.2 = true := by
  have hsorted : List.Sorted Interval.begin_le p.ReorgIntervals.pool_ :=
    List.sorted_insertionSort Interval.begin_le p.pool_
  have hperm : List.Perm p.ReorgIntervals.pool_ p.pool_ :=
    List.perm_insertionSort Interval.begin_le p.pool_
  have hcov : p.ReorgIntervals.covers_from 0 := by
    intro interval hin
    left
    simpa [IntervalPool.ReorgIntervals] using hin
  have h := IntervalPool.check_all_covered ts p.ReorgIntervals 0 hsorted hcov
    (fun t _ => Nat.zero_le t) hts
  refine ⟨h.1, ?_⟩
  intro tb htb hin
  apply h.2 tb htb
  obtain ⟨interval, hmem, hrange⟩ := hin
  exact ⟨interval, hperm.mem_iff.mpr hmem, hrange⟩

/-- Witness of C16: the pool 7..9, 1..5 with a stale iterator and helper set, and
the times 0, 3, 6, 8. -/
theorem C16_in_range_is_found_witness :
    List.Sorted (fun a b => a < b) [0, 3, 6, 8]
      ∧ ((IntervalPool.mk [{ begin_time := 7, end_time := 9 },
            { begin_time := 1, end_time := 5 }] 3 [4]).ReorgIntervals.check_all
          [0, 3, 6, 8]).1.length = 4
      ∧ ∀ tb ∈ [0, 3, 6, 8].zip
            ((IntervalPool.mk [{ begin_time := 7, end_time := 9 },
              { begin_time := 1, end_time := 5 }] 3 [4]).ReorgIntervals.check_all
              [0, 3, 6, 8]).1,
          in_some_range [{ begin_time := 7, end_time := 9 },
            { begin_time := 1, end_time := 5 }] tb.1 → tb.2 = true :=
  ⟨by decide,
   C16_in_range_is_found (IntervalPool.mk [{ begin_time := 7, end_time := 9 },
      { begin_time := 1, end_time := 5 }] 3 [4]) [0, 3, 6, 8] (by decide)⟩

/-- C17: on an obstacle whose polygon is empty, with exact real arithmetic,
`FillPerceptionPolygon` leaves exactly 8 polygon points, each with `x`, `y` and `z`
set, and the mean of each coordinate over the points is `mid_x`, `mid_y`,
`mid_z`. -/
theorem C17_polygon_mean (o : PerceptionObstacle ℝ)
    (mid_x mid_y mid_z length width height heading : ℝ) (h : o.polygon_point = []) :
    (FillPerceptionPolygon Real.cos Real.sin o mid_x mid_y mid_z length width height
        heading).polygon_point.length = 8
      ∧ (∀ p ∈ (FillPerceptionPolygon Real.cos Real.sin o mid_x mid_y mid_z length width
            height heading).polygon_point,
          p.x.isSome = true ∧ p.y.isSome = true ∧ p.z.isSome = true)
      ∧ coordinate_mean (FillPerceptionPolygon Real.cos Real.sin o mid_x mid_y mid_z
          length width height heading).polygon_point Point.x = mid_x
      ∧ coordinate_mean (FillPerceptionPolygon Real.cos Real.sin o mid_x mid_y mid_z
          length width height heading).polygon_point Point.y = mid_y
      ∧ coordinate_mean (FillPerceptionPolygon Real.cos Real.sin o mid_x mid_y mid_z
          length width height heading).polygon_point Point.z = mid_z := by
  cases o
  simp only at h
  subst h
  rw [FillPerceptionPolygon_empty]
  refine ⟨rfl, ?_, ?_, ?_, ?_⟩
  · intro p hp
    simp only [List.mem_cons, List.mem_singleton, List.not_mem_nil, or_false] at hp
    rcases hp with h | h | h | h | h | h | h | h <;> subst h <;> exact ⟨rfl, rfl, rfl⟩
  · simp only [coordinate_mean, coordinates, List.map_cons, List.map_nil, Option.getD_some,
      List.sum_cons, List.sum_nil, List.length_cons, List.length_nil]
    norm_num
    ring
  · simp only [coordinate_mean, coordinates, List.map_cons, List.map_nil, Option.getD_some,
      List.sum_cons, List.sum_nil, List.length_cons, List.length_nil]
    norm_num
    ring
  · simp only [coordinate_mean, coordinates, List.map_cons, List.map_nil, Option.getD_some,
      List.sum_cons, List.sum_nil, List.length_cons, List.length_nil]
    norm_num
    ring

/-- Witness of C17: the empty obstacle, the centre (1, 2, 3), length 4, width 2,
height 2, heading 0. -/
theorem C17_polygon_mean_witness :
    ({ polygon_point := [] } : PerceptionObstacle ℝ).polygon_point = []
      ∧ (FillPerceptionPolygon Real.cos Real.sin { polygon_point := [] } 1 2 3 4 2 2
          0).polygon_point.length = 8
      ∧ coordinate_mean (FillPerceptionPolygon Real.cos Real.sin { polygon_point := [] }
          1 2 3 4 2 2 0).polygon_point Point.x = 1 :=
  ⟨rfl,
   (C17_polygon_mean { polygon_point := [] } 1 2 3 4 2 2 0 rfl).1,
   (C17_polygon_mean { polygon_point := [] } 1 2 3 4 2 2 0 rfl).2.2.1⟩

end Apollo
